/-
Verification of the feedgenerator library (feedgenerator.py): a shallow
embedding of its data model and operations in Lean 4, together with theorems
settling the specification claims.

Modeling conventions:
- Python `str`-or-`None` values are `Option String`; the library's
  `force_unicode(s, strings_only=True)` is the identity on that domain
  (text passes through unchanged, `None` passes through), so the embedding's
  `to_unicode` is the identity.  The claims only exercise text inputs, so the
  extra duck-typed branches of `force_unicode`/`smart_str` (numbers,
  exception objects, lazy objects) are outside the embedded domain.
- `datetime.datetime` is a record of calendar fields plus an optional fixed
  UTC offset (`tzinfo.utcoffset` result, modeled as a `timedelta` with
  Python's normalization `0 <= seconds < 86400`); sub-second fields are not
  modeled (none of the formatting at issue prints them).
- XML emission is modeled as a list of SAX-like events plus an optional
  Python exception: a write that raises produces the events emitted before
  the raise and the error.  The underlying writer's escaping is not modeled
  (events carry the raw strings handed to the writer).
- This source file is Python 3 (`urllib.parse`, `io.StringIO`): a Python 3
  `str` has no `.decode` method, so the source's
  `rfc2822_date(...).decode('utf-8')` calls raise `AttributeError`; the
  embedding models that call as the raised error.
-/

import Mathlib

/-! ## Python string helpers -/

/-- Python `a or b` on str-or-None operands: `a` unless it is falsy
(`None` or the empty string), else `b`.  Used for `feed_guid or link`. -/
def pyOrS (a b : Option String) : Option String :=
  match a with
  | some s => if s = "" then b else some s
  | none => b

/-- Python truthiness of a str-or-None value (`if item["author_name"]`). -/
def pyTruthy (a : Option String) : Bool :=
  match a with
  | some s => s ≠ ""
  | none => false

/-- `force_unicode(s, strings_only=True)` restricted to the embedded domain
(text or `None`): `None` is a protected type and is returned unchanged, and
a `str` input is returned unchanged, so the operation is the identity. -/
def to_unicode (s : Option String) : Option String := s

/-- The value a Python `'%s' % x` produces for a str-or-None `x`. -/
def pyFmtS (s : Option String) : String :=
  match s with
  | some t => t
  | none => "None"

/-! ## UTF-8 encoding (`s.encode('utf-8')`) -/

/-- The UTF-8 byte sequence of one scalar value, as natural numbers. -/
def utf8EncodeCharM (c : Char) : List Nat :=
  let n := c.toNat
  if n < 0x80 then [n]
  else if n < 0x800 then [0xC0 ||| (n >>> 6), 0x80 ||| (n &&& 0x3F)]
  else if n < 0x10000 then
    [0xE0 ||| (n >>> 12), 0x80 ||| ((n >>> 6) &&& 0x3F), 0x80 ||| (n &&& 0x3F)]
  else
    [0xF0 ||| (n >>> 18), 0x80 ||| ((n >>> 12) &&& 0x3F),
     0x80 ||| ((n >>> 6) &&& 0x3F), 0x80 ||| (n &&& 0x3F)]

/-- `s.encode('utf-8')`: the byte string of `s`. -/
def utf8Encode (s : String) : List Nat :=
  s.data.flatMap utf8EncodeCharM

/-- `smart_str(s)` on the embedded domain (a `str`): `s.encode('utf-8')`. -/
def smart_str (s : String) : List Nat := utf8Encode s

/-! ## `urllib.parse.quote` and `iri_to_uri` -/

/-- Membership of a byte in `urllib.parse.quote`'s safe set for the call
`quote(.., safe="/#%[]=:;$&()+,!?*@'~")`: the always-safe bytes
(ASCII letters, digits, `_`, `.`, `-`, `~`) together with the bytes of the
`safe` argument. -/
def safeByte (b : Nat) : Bool :=
  (65 ≤ b && b ≤ 90) || (97 ≤ b && b ≤ 122) || (48 ≤ b && b ≤ 57) ||
  b == 95 || b == 46 || b == 45 || b == 126 ||
  b == 47 || b == 35 || b == 37 || b == 91 || b == 93 || b == 61 ||
  b == 58 || b == 59 || b == 36 || b == 38 || b == 40 || b == 41 ||
  b == 43 || b == 44 || b == 33 || b == 63 || b == 42 || b == 64 || b == 39

/-- The sixteen uppercase hex digits, as `quote` uses for `%XX` escapes. -/
def hexDigits : List Char :=
  ['0', '1', '2', '3', '4', '5', '6', '7', '8', '9', 'A', 'B', 'C', 'D', 'E', 'F']

def hexDigit (n : Nat) : Char := hexDigits.getD n '0'

/-- The characters `quote` emits for one input byte: the byte itself when
safe, else a `%XX` escape. -/
def quoteByteChars (b : Nat) : List Char :=
  if safeByte b then [Char.ofNat b] else ['%', hexDigit (b / 16), hexDigit (b % 16)]

/-- `urllib.parse.quote(bytes, safe="/#%[]=:;$&()+,!?*@'~")`. -/
def pyQuote (bytes : List Nat) : String :=
  ⟨bytes.flatMap quoteByteChars⟩

/-- `iri_to_uri(iri)`: `None` unchanged, else
`urllib.parse.quote(smart_str(iri), safe="/#%[]=:;$&()+,!?*@'~")`. -/
def iri_to_uri (iri : Option String) : Option String :=
  match iri with
  | none => none
  | some s => some (pyQuote (smart_str s))

/-! ## Datetimes (`datetime.datetime` with an optional fixed UTC offset) -/

/-- A `datetime.timedelta` as Python normalizes it: an integer day count and
a second count with `0 <= seconds < 86400` (sub-second part not modeled).
The value returned by `tzinfo.utcoffset`. -/
structure Timedelta where
  days : Int
  seconds : Nat
deriving DecidableEq, Repr

/-- A `datetime.datetime`: calendar fields plus the optional UTC offset its
`tzinfo` reports (`none` models a naive datetime). -/
structure Datetime where
  year : Nat
  month : Nat
  day : Nat
  hour : Nat
  minute : Nat
  second : Nat
  tz : Option Timedelta
deriving DecidableEq, Repr

/-- `%02d`. -/
def pad2 (n : Nat) : String :=
  if n < 10 then "0" ++ toString n else toString n

/-- `%04d` / `%Y` (the claims only use four-digit years; `%Y` on years below
1000 is platform-dependent in CPython and is fixed here as zero-padded). -/
def pad4 (n : Nat) : String :=
  if n < 10 then "000" ++ toString n
  else if n < 100 then "00" ++ toString n
  else if n < 1000 then "0" ++ toString n
  else toString n

/-- `%+03d`: explicit sign, then the absolute value zero-padded to width 2. -/
def signedPad3 (h : Int) : String :=
  (if h < 0 then "-" else "+") ++ pad2 h.natAbs

/-- Days from 1970-01-01 of a proleptic-Gregorian civil date
(Howard Hinnant's `days_from_civil`), used to recover the weekday that
`strftime('%a')` prints. -/
def daysFromCivil (y m d : Nat) : Int :=
  let yAdj : Int := if m ≤ 2 then (y : Int) - 1 else (y : Int)
  let era : Int := yAdj.fdiv 400
  let yoe : Int := yAdj - era * 400
  let mp : Int := if m > 2 then (m : Int) - 3 else (m : Int) + 9
  let doy : Int := (153 * mp + 2).fdiv 5 + (d : Int) - 1
  let doe : Int := yoe * 365 + yoe.fdiv 4 - yoe.fdiv 100 + doy
  era * 146097 + doe - 719468

/-- C-locale `%a` weekday abbreviations, indexed Monday=0 as in Python. -/
def dayAbbrevs : List String :=
  ["Mon", "Tue", "Wed", "Thu", "Fri", "Sat", "Sun"]

/-- C-locale `%b` month abbreviations. -/
def monthAbbrevs : List String :=
  ["Jan", "Feb", "Mar", "Apr", "May", "Jun",
   "Jul", "Aug", "Sep", "Oct", "Nov", "Dec"]

/-- `%a` of a datetime (1970-01-01 was a Thursday, `weekday() = 3`). -/
def dayAbbrev (dt : Datetime) : String :=
  dayAbbrevs.getD ((daysFromCivil dt.year dt.month dt.day + 3).emod 7).toNat ""

/-- `%b` of a datetime. -/
def monthAbbrev (dt : Datetime) : String :=
  monthAbbrevs.getD (dt.month - 1) ""

/-- `date.strftime('%a, %d %b %Y %H:%M:%S ')` (note the trailing space). -/
def strftime2822 (dt : Datetime) : String :=
  dayAbbrev dt ++ ", " ++ pad2 dt.day ++ " " ++ monthAbbrev dt ++ " " ++
  pad4 dt.year ++ " " ++ pad2 dt.hour ++ ":" ++ pad2 dt.minute ++ ":" ++
  pad2 dt.second ++ " "

/-- `date.strftime('%Y-%m-%dT%H:%M:%S')`. -/
def strftime3339 (dt : Datetime) : String :=
  pad4 dt.year ++ "-" ++ pad2 dt.month ++ "-" ++ pad2 dt.day ++ "T" ++
  pad2 dt.hour ++ ":" ++ pad2 dt.minute ++ ":" ++ pad2 dt.second

/-- The total offset minutes the source computes:
`timezone = (offset.days * 24 * 60) + (offset.seconds / 60)`.  The source's
`/` is float division followed by `%d` truncation inside `divmod`; for the
integer part this agrees with floor division of the seconds by 60 (the
fractional part, present only for offsets not on a whole minute, is dropped
by the `%d` conversion). -/
def offsetMinutes (off : Timedelta) : Int :=
  off.days * 24 * 60 + (off.seconds / 60 : Nat)

/-- `rfc2822_date(date)`. -/
def rfc2822_date (dt : Datetime) : String :=
  match dt.tz with
  | some off =>
    let time_str := strftime2822 dt
    let timezone := offsetMinutes off
    time_str ++ signedPad3 (timezone.fdiv 60) ++ pad2 (timezone.fmod 60).toNat
  | none => strftime2822 dt ++ "-0000"

/-- `rfc3339_date(date)`. -/
def rfc3339_date (dt : Datetime) : String :=
  match dt.tz with
  | some off =>
    let time_str := strftime3339 dt
    let timezone := offsetMinutes off
    time_str ++ signedPad3 (timezone.fdiv 60) ++ ":" ++ pad2 (timezone.fmod 60).toNat
  | none => strftime3339 dt ++ "Z"

/-! ## `urllib.parse.urlparse` (the slice `get_tag_uri` consumes) -/

/-- Split a character list at the first occurrence of `c`:
`some (before, after)` with the separator dropped, or `none` when `c` is
absent (Python `s.split(c, 1)` / `s.partition(c)`). -/
def splitOnFirstChar (c : Char) : List Char → Option (List Char × List Char)
  | [] => none
  | x :: xs =>
    if x = c then some ([], xs)
    else (splitOnFirstChar c xs).map (fun p => (x :: p.1, p.2))

/-- Python `s.rpartition('@')[2]`: the part after the last `@`, or the whole
string when there is none. -/
def afterLastAt (l : List Char) : List Char :=
  (l.reverse.takeWhile (fun c => c ≠ '@')).reverse

/-- Valid characters of a URL scheme after the first (`urllib.parse`'s
`scheme_chars`). -/
def isSchemeChar (c : Char) : Bool :=
  c.isAlpha || c.isDigit || c == '+' || c == '-' || c == '.'

/-- The result fields of `urlparse` that `get_tag_uri` reads. -/
structure UrlSplit where
  netloc : List Char
  path : List Char
  fragment : List Char

/-- `urllib.parse.urlsplit`, restricted to the fields `get_tag_uri` uses:
strip a syntactically valid scheme at the first `:`; when the remainder
starts with `//`, the netloc extends to the next `/`, `?` or `#`; then the
fragment is everything after the first `#` and the query (discarded here)
everything after the first `?` of what precedes it; the path is the rest. -/
def urlsplitM (url : String) : UrlSplit :=
  let cs := url.data
  let afterScheme :=
    match splitOnFirstChar ':' cs with
    | some (before, after) =>
      if before ≠ [] ∧ (before.headD 'a').isAlpha ∧ before.all isSchemeChar then after
      else cs
    | none => cs
  let (netloc, rest) :=
    match afterScheme with
    | '/' :: '/' :: r =>
      (r.takeWhile (fun c => c ≠ '/' ∧ c ≠ '?' ∧ c ≠ '#'),
       r.dropWhile (fun c => c ≠ '/' ∧ c ≠ '?' ∧ c ≠ '#'))
    | r => ([], r)
  let (beforeFrag, fragment) :=
    match splitOnFirstChar '#' rest with
    | some (b, f) => (b, f)
    | none => (rest, [])
  let path :=
    match splitOnFirstChar '?' beforeFrag with
    | some (b, _) => b
    | none => beforeFrag
  { netloc := netloc, path := path, fragment := fragment }

/-- The `hostname` property of a parse result: the part of the netloc after
the last `@`; if a `[` is present, the bracketed host up to `]`, else the
part before the first `:`; lowercased, and `None` when empty. -/
def urlHostname (netloc : List Char) : Option String :=
  let hostinfo := afterLastAt netloc
  let host :=
    match splitOnFirstChar '[' hostinfo with
    | some (_, bracketed) =>
      match splitOnFirstChar ']' bracketed with
      | some (h, _) => h
      | none => bracketed
    | none =>
      match splitOnFirstChar ':' hostinfo with
      | some (h, _) => h
      | none => hostinfo
  if host = [] then none else some (String.mk (host.map Char.toLower))

/-- `date.strftime('%Y-%m-%d')`. -/
def strftimeYmd (dt : Datetime) : String :=
  pad4 dt.year ++ "-" ++ pad2 dt.month ++ "-" ++ pad2 dt.day

/-- `get_tag_uri(url, date)`:
`'tag:%s%s:%s/%s' % (hostname, d, path, fragment)` where `d` is
`',%s' % date.strftime('%Y-%m-%d')` when a date is given, else `''`. -/
def get_tag_uri (url : String) (date : Option Datetime) : String :=
  let u := urlsplitM url
  let d := match date with
    | some dt => "," ++ strftimeYmd dt
    | none => ""
  "tag:" ++ pyFmtS (urlHostname u.netloc) ++ d ++ ":" ++
    String.mk u.path ++ "/" ++ String.mk u.fragment

/-! ## Feed data model -/

/-- An RSS enclosure: `Enclosure.__init__` stores `length` and `mime_type`
unchanged and `url` through `iri_to_uri`.  Fields here are the *stored*
values. -/
structure Enclosure where
  url : Option String
  length : Option String
  mime_type : Option String
deriving DecidableEq, Repr

/-- `Enclosure(url, length, mime_type)`. -/
def Enclosure.init (url length mime_type : Option String) : Enclosure :=
  { url := iri_to_uri url, length := length, mime_type := mime_type }

/-- One entry of `self.items`: the dict `add_item` builds (the open-ended
`**kwargs` extension mapping, unused by every claim, is not modeled). -/
structure Item where
  title : Option String
  link : Option String
  description : Option String
  author_email : Option String
  author_name : Option String
  author_link : Option String
  pubdate : Option Datetime
  comments : Option String
  unique_id : Option String
  enclosure : Option Enclosure
  categories : List String
  item_copyright : Option String
  ttl : Option String
deriving DecidableEq, Repr

/-- `self.feed`: the dict `SyndicationFeed.__init__` builds (`**kwargs`
extension entries, unused by every claim, are not modeled). -/
structure Feed where
  title : Option String
  link : Option String
  description : Option String
  language : Option String
  author_email : Option String
  author_name : Option String
  author_link : Option String
  subtitle : Option String
  categories : List String
  feed_url : Option String
  feed_copyright : Option String
  id : Option String
  ttl : Option String
deriving DecidableEq, Repr

/-- `SyndicationFeed.__init__`: text fields through
`force_unicode(strings_only=True)` (identity on the embedded domain), URI
fields through `iri_to_uri`, and `'id': feed_guid or link` — note the *raw*
`link`, not the encoded one. -/
def SyndicationFeed.init (title link description language author_email
    author_name author_link subtitle : Option String) (categories : List String)
    (feed_url feed_copyright feed_guid ttl : Option String) : Feed :=
  { title := to_unicode title
    link := iri_to_uri link
    description := to_unicode description
    language := to_unicode language
    author_email := to_unicode author_email
    author_name := to_unicode author_name
    author_link := iri_to_uri author_link
    subtitle := to_unicode subtitle
    categories := categories
    feed_url := iri_to_uri feed_url
    feed_copyright := to_unicode feed_copyright
    id := pyOrS feed_guid link
    ttl := ttl }

/-- `SyndicationFeed.add_item`: the normalized item dict appended to
`self.items` (appending itself is list concatenation at the call site). -/
def SyndicationFeed.add_item (title link description author_email author_name
    author_link : Option String) (pubdate : Option Datetime)
    (comments unique_id : Option String) (enclosure : Option Enclosure)
    (categories : List String) (item_copyright ttl : Option String) : Item :=
  { title := to_unicode title
    link := iri_to_uri link
    description := to_unicode description
    author_email := to_unicode author_email
    author_name := to_unicode author_name
    author_link := iri_to_uri author_link
    pubdate := pubdate
    comments := to_unicode comments
    unique_id := to_unicode unique_id
    enclosure := enclosure
    categories := categories
    item_copyright := to_unicode item_copyright
    ttl := ttl }

/-! ## `latest_post_date` -/

/-- The instant key under which Python orders datetimes: seconds from epoch
of the civil fields minus the UTC offset.  For two naive datetimes Python
compares the field tuples and for two aware ones the UTC instants; both
orders agree with comparison of this key (a naive/aware mixture raises in
Python and is outside the embedding's comparisons). -/
def dtKey (dt : Datetime) : Int :=
  daysFromCivil dt.year dt.month dt.day * 86400 +
    (dt.hour * 3600 + dt.minute * 60 + dt.second : Nat) -
    (match dt.tz with
     | some off => off.days * 86400 + (off.seconds : Int)
     | none => 0)

/-- Insertion step of the comparison sort modeling `list.sort()`. -/
def insertDt (a : Datetime) : List Datetime → List Datetime
  | [] => [a]
  | x :: xs => if dtKey a ≤ dtKey x then a :: x :: xs else x :: insertDt a xs

/-- `updates.sort()`: a comparison sort producing an ascending reordering. -/
def pySortDt : List Datetime → List Datetime
  | [] => []
  | x :: xs => insertDt x (pySortDt xs)

/-- `SyndicationFeed.latest_post_date`: collect the non-`None` pubdates,
and if any exist sort them and return the last (`updates[-1]`); otherwise
return `datetime.datetime.now()`, passed in here as `now`. -/
def latest_post_date (now : Datetime) (items : List Item) : Datetime :=
  let updates := items.filterMap Item.pubdate
  if updates.length > 0 then (pySortDt updates).getLastD now else now

/-! ## XML emission (`SimplerXMLGenerator` events) -/

/-- A SAX event handed to the streaming writer (escaping by the underlying
writer is not modeled; events carry the raw strings). -/
inductive XmlEvent where
  | start (name : String) (attrs : List (String × String))
  | chars (s : String)
  | close (name : String)
deriving DecidableEq, Repr

/-- The outcome of a stretch of emission: the events written before any
exception, and the exception if one was raised. -/
abbrev EmitResult := List XmlEvent × Option String

/-- `AttributeError` raised by `xml.sax.saxutils.quoteattr(None)` when an
attribute value is `None`. -/
def attrNoneErr : String :=
  "AttributeError: NoneType object has no attribute replace"

/-- `AttributeError` raised by `somestr.decode('utf-8')`: a Python 3 `str`
has no `decode` method.  The source calls it on the `str` returned by
`rfc2822_date` (at `lastBuildDate` and `pubDate`). -/
def pyStrDecode (_s : String) : Except String String :=
  Except.error "AttributeError: str object has no attribute decode"

/-- Sequence two emission stretches: if the first raised, the second never
runs; otherwise concatenate the events and keep the second's outcome. -/
def eseq (a b : EmitResult) : EmitResult :=
  match a.2 with
  | none => (a.1 ++ b.1, b.2)
  | some _ => a

/-- Run a list of emission stretches in order. -/
def emitAll (l : List EmitResult) : EmitResult :=
  l.foldr eseq ([], none)

/-- Resolve an attribute dict whose values may be `None`: the writer quotes
each value with `quoteattr`, which raises on `None`. -/
def resolveAttrs : List (String × Option String) → Except String (List (String × String))
  | [] => Except.ok []
  | (n, some v) :: rest => (resolveAttrs rest).map (fun a => (n, v) :: a)
  | (_, none) :: _ => Except.error attrNoneErr

/-- `SimplerXMLGenerator.addQuickElement(name, contents, attrs)`: start
element (raising if an attribute value is `None`), character data when
`contents is not None`, end element. -/
def addQuickElement (name : String) (contents : Option String)
    (attrs : List (String × Option String)) : EmitResult :=
  match resolveAttrs attrs with
  | Except.ok a =>
    ([XmlEvent.start name a] ++
     (match contents with
      | some c => [XmlEvent.chars c]
      | none => []) ++
     [XmlEvent.close name], none)
  | Except.error e => ([], some e)

/-- A quick element emitted only when the guarding field `is not None`
(e.g. `if self.feed['language'] is not None: ...`). -/
def optElem (name : String) (v : Option String) : EmitResult :=
  match v with
  | some s => addQuickElement name (some s) []
  | none => ([], none)

/-! ## RSS variants -/

/-- `RssFeed.rss_attributes()`. -/
def rss_attributes (version : String) : List (String × String) :=
  [("version", version), ("xmlns:atom", "http://www.w3.org/2005/Atom")]

/-- `RssFeed.add_root_elements(handler)`, with `latest` the value of
`self.latest_post_date()`.  `lastBuildDate` applies `.decode('utf-8')` to
the `str` returned by `rfc2822_date`, which raises in Python 3. -/
def RssFeed.add_root_elements (feed : Feed) (latest : Datetime) : EmitResult :=
  emitAll [
    addQuickElement "title" feed.title [],
    addQuickElement "link" feed.link [],
    addQuickElement "description" feed.description [],
    addQuickElement "atom:link" none [("rel", some "self"), ("href", feed.feed_url)],
    optElem "language" feed.language,
    emitAll (feed.categories.map (fun cat => addQuickElement "category" (some cat) [])),
    optElem "copyright" feed.feed_copyright,
    (match pyStrDecode (rfc2822_date latest) with
     | Except.ok s => addQuickElement "lastBuildDate" (some s) []
     | Except.error e => ([], some e)),
    optElem "ttl" feed.ttl ]

/-- `RssFeed.write_items(handler)` given the variant's
`add_item_elements`. -/
def RssFeed.write_items (aie : Item → EmitResult) (items : List Item) : EmitResult :=
  emitAll (items.map (fun item =>
    emitAll [([XmlEvent.start "item" []], none), aie item,
             ([XmlEvent.close "item"], none)]))

/-- `RssFeed.write(outfile, encoding)` for a variant with version string
`version` and per-item hook `aie`; `now` stands for
`datetime.datetime.now()` inside `latest_post_date`.  (The XML declaration
`startDocument` writes is not an element event and is not modeled.) -/
def RssFeed.write (version : String) (aie : Item → EmitResult)
    (feed : Feed) (items : List Item) (now : Datetime) : EmitResult :=
  emitAll [
    ([XmlEvent.start "rss" (rss_attributes version)], none),
    ([XmlEvent.start "channel" []], none),
    RssFeed.add_root_elements feed (latest_post_date now items),
    RssFeed.write_items aie items,
    ([XmlEvent.close "channel"], none),
    ([XmlEvent.close "rss"], none) ]

/-- `RssUserland091Feed.add_item_elements(handler, item)`. -/
def RssUserland091Feed.add_item_elements (item : Item) : EmitResult :=
  emitAll [
    addQuickElement "title" item.title [],
    addQuickElement "link" item.link [],
    optElem "description" item.description ]

/-- `RssUserland091Feed.write` (`_version = "0.91"`). -/
def RssUserland091Feed.write (feed : Feed) (items : List Item)
    (now : Datetime) : EmitResult :=
  RssFeed.write "0.91" RssUserland091Feed.add_item_elements feed items now

/-- `Rss201rev2Feed.add_item_elements(handler, item)`.  The `pubDate`
element applies `.decode('utf-8')` to the `str` from `rfc2822_date`, which
raises in Python 3. -/
def Rss201rev2Feed.add_item_elements (item : Item) : EmitResult :=
  emitAll [
    addQuickElement "title" item.title [],
    addQuickElement "link" item.link [],
    optElem "description" item.description,
    (if pyTruthy item.author_name && pyTruthy item.author_email then
       addQuickElement "author"
         (some (pyFmtS item.author_email ++ " (" ++ pyFmtS item.author_name ++ ")")) []
     else if pyTruthy item.author_email then
       addQuickElement "author" item.author_email []
     else if pyTruthy item.author_name then
       addQuickElement "dc:creator" item.author_name
         [("xmlns:dc", some "http://purl.org/dc/elements/1.1/")]
     else ([], none)),
    (match item.pubdate with
     | some d =>
       (match pyStrDecode (rfc2822_date d) with
        | Except.ok s => addQuickElement "pubDate" (some s) []
        | Except.error e => ([], some e))
     | none => ([], none)),
    optElem "comments" item.comments,
    optElem "guid" item.unique_id,
    optElem "ttl" item.ttl,
    (match item.enclosure with
     | some e => addQuickElement "enclosure" (some "")
         [("url", e.url), ("length", e.length), ("type", e.mime_type)]
     | none => ([], none)),
    emitAll (item.categories.map (fun cat => addQuickElement "category" (some cat) [])) ]

/-- `Rss201rev2Feed.write` (`_version = "2.0"`). -/
def Rss201rev2Feed.write (feed : Feed) (items : List Item)
    (now : Datetime) : EmitResult :=
  RssFeed.write "2.0" Rss201rev2Feed.add_item_elements feed items now

/-! ## Atom variant -/

/-- The `updated` element emitted when the item has a pubdate. -/
def atomUpdatedElem (pd : Option Datetime) : EmitResult :=
  match pd with
  | some d => addQuickElement "updated" (some (rfc3339_date d)) []
  | none => ([], none)

/-- The `author` block emitted when the item has an author name. -/
def atomAuthorBlock (name email uri : Option String) : EmitResult :=
  match name with
  | some nm => emitAll [
      ([XmlEvent.start "author" []], none),
      addQuickElement "name" (some nm) [],
      optElem "email" email,
      optElem "uri" uri,
      ([XmlEvent.close "author"], none) ]
  | none => ([], none)

/-- The unique-id logic of `Atom1Feed.add_item_elements`: the item's
`unique_id` when it `is not None`, else
`get_tag_uri(item['link'], item['pubdate'])`.  With no `unique_id` and a
`None` link the source's `urlparse(None)` would raise; that branch is
modeled as a raised error (it is unreachable in a full entry because the
earlier `link` element's `href=None` raises first). -/
def atomIdElem (unique_id link : Option String) (pd : Option Datetime) : EmitResult :=
  match unique_id with
  | some u => addQuickElement "id" (some u) []
  | none =>
    match link with
    | some l => addQuickElement "id" (some (get_tag_uri l pd)) []
    | none => ([], some "TypeError: urlparse expected a string or bytes object")

/-- The `summary type="html"` element emitted from a description. -/
def atomSummaryElem (d : Option String) : EmitResult :=
  match d with
  | some s => addQuickElement "summary" (some s) [("type", some "html")]
  | none => ([], none)

/-- The enclosure rendered as a `link rel="enclosure"` element. -/
def atomEnclosureElem (e : Option Enclosure) : EmitResult :=
  match e with
  | some enc => addQuickElement "link" (some "")
      [("rel", some "enclosure"), ("href", enc.url),
       ("length", enc.length), ("type", enc.mime_type)]
  | none => ([], none)

/-- The `category term="…"` elements. -/
def atomCategoryElems (cats : List String) : EmitResult :=
  emitAll (cats.map (fun cat =>
    addQuickElement "category" (some "") [("term", some cat)]))

/-- `Atom1Feed.add_item_elements(handler, item)`. -/
def Atom1Feed.add_item_elements (item : Item) : EmitResult :=
  emitAll [
    addQuickElement "title" item.title [],
    addQuickElement "link" (some "") [("href", item.link), ("rel", some "alternate")],
    atomUpdatedElem item.pubdate,
    atomAuthorBlock item.author_name item.author_email item.author_link,
    atomIdElem item.unique_id item.link item.pubdate,
    atomSummaryElem item.description,
    atomEnclosureElem item.enclosure,
    atomCategoryElems item.categories,
    optElem "rights" item.item_copyright ]

/-- Count of `start` events with the given element name in a trace. -/
def startCount (name : String) (l : List XmlEvent) : Nat :=
  l.countP (fun e =>
    match e with
    | XmlEvent.start n _ => n == name
    | _ => false)

/-! ## General helper lemmas -/

/-- Sanity evaluation: the full RFC 2822 rendering of a concrete naive
timestamp (2009-01-01 was a Thursday), fixing the strftime embedding. -/
theorem rfc2822_date_sample_eval :
    rfc2822_date ⟨2009, 1, 1, 12, 0, 0, none⟩ =
      "Thu, 01 Jan 2009 12:00:00 -0000" ∧
    rfc2822_date ⟨2009, 1, 1, 12, 0, 0, some ⟨0, 19800⟩⟩ =
      "Thu, 01 Jan 2009 12:00:00 +0530" := by
  exact ⟨by decide, by decide⟩

/-- Sanity evaluation: the full RFC 3339 rendering of a concrete timestamp
at UTC-8:00 (`timedelta(hours=-8)` normalizes to -1 day + 57600 s). -/
theorem rfc3339_date_sample_eval :
    rfc3339_date ⟨2009, 1, 1, 12, 0, 0, some ⟨-1, 57600⟩⟩ =
      "2009-01-01T12:00:00-08:00" := by
  decide

/-- `suf` is a literal suffix of the text `s`. -/
def strEndsIn (suf s : String) : Prop :=
  suf.data <:+ s.data

theorem strEndsIn_append (a suf : String) : strEndsIn suf (a ++ suf) := by
  unfold strEndsIn
  rw [String.data_append]
  exact List.suffix_append a.data suf.data

theorem suffix_eq_of_length {α : Type} {l₁ l₂ l : List α}
    (h₁ : l₁ <:+ l) (h₂ : l₂ <:+ l) (hlen : l₁.length = l₂.length) : l₁ = l₂ := by
  obtain ⟨a, ha⟩ := h₁
  obtain ⟨b, hb⟩ := h₂
  have hab : a ++ l₁ = b ++ l₂ := by rw [ha, hb]
  have hl : a.length = b.length := by
    have := congrArg List.length hab
    simp only [List.length_append] at this
    omega
  exact List.append_inj_right hab hl

theorem strEndsIn_of_append_eq {a suf : String} {s : String}
    (h : s = a ++ suf) : strEndsIn suf s := by
  rw [h]; exact strEndsIn_append a suf

theorem append_right_eq (a : String) {x y : String} (h : x = y) :
    a ++ x = a ++ y :=
  congrArg (fun z => a ++ z) h

/-! ## Claim C2: the RFC 2822 formatter -/

/-- C2: a timezone-naive timestamp is rendered with literal `-0000`; a
timezone-aware one as the `Dow, DD Mon YYYY HH:MM:SS ` prefix followed by
the signed zone offset obtained by `divmod` from the total offset minutes
`offset.days*1440 + offset.seconds/60`; UTC offset +5:30 ends in `+0530`;
a zero offset with tzinfo present ends in `+0000` and never takes the
naive `-0000` branch. -/
theorem rfc2822_date_spec :
    (∀ dt : Datetime, dt.tz = none → strEndsIn "-0000" (rfc2822_date dt)) ∧
    (∀ (dt : Datetime) (off : Timedelta), dt.tz = some off →
      rfc2822_date dt = strftime2822 dt ++
        signedPad3 ((off.days * 1440 + (off.seconds / 60 : Nat)).fdiv 60) ++
        pad2 ((off.days * 1440 + (off.seconds / 60 : Nat)).fmod 60).toNat) ∧
    (∀ dt : Datetime, dt.tz = some ⟨0, 19800⟩ → strEndsIn "+0530" (rfc2822_date dt)) ∧
    (∀ dt : Datetime, dt.tz = some ⟨0, 0⟩ →
      strEndsIn "+0000" (rfc2822_date dt) ∧ ¬ strEndsIn "-0000" (rfc2822_date dt)) := by
  have hmin : ∀ off : Timedelta,
      offsetMinutes off = off.days * 1440 + (off.seconds / 60 : Nat) := by
    intro off
    unfold offsetMinutes
    ring_nf
  have haware : ∀ (dt : Datetime) (off : Timedelta), dt.tz = some off →
      rfc2822_date dt = strftime2822 dt ++
        signedPad3 ((off.days * 1440 + (off.seconds / 60 : Nat)).fdiv 60) ++
        pad2 ((off.days * 1440 + (off.seconds / 60 : Nat)).fmod 60).toNat := by
    intro dt off h
    unfold rfc2822_date
    rw [h, ← hmin off]
  refine ⟨?_, haware, ?_, ?_⟩
  · intro dt h
    unfold rfc2822_date
    rw [h]
    exact strEndsIn_append _ _
  · intro dt h
    have heq : rfc2822_date dt = strftime2822 dt ++ "+0530" := by
      rw [haware dt ⟨0, 19800⟩ h, String.append_assoc]
      exact append_right_eq _ (by decide)
    exact strEndsIn_of_append_eq heq
  · intro dt h
    have heq : rfc2822_date dt = strftime2822 dt ++ "+0000" := by
      rw [haware dt ⟨0, 0⟩ h, String.append_assoc]
      exact append_right_eq _ (by decide)
    constructor
    · exact strEndsIn_of_append_eq heq
    · intro hcon
      have hpos : strEndsIn "+0000" (rfc2822_date dt) := strEndsIn_of_append_eq heq
      have : ("-0000" : String).data = ("+0000" : String).data :=
        suffix_eq_of_length hcon hpos (by decide)
      exact absurd this (by decide)

/-- Witness for C2 at concrete timestamps: a naive one, one at UTC+5:30 and
one at UTC+0:00. -/
theorem rfc2822_date_spec_witness :
    ((⟨2009, 1, 1, 12, 0, 0, none⟩ : Datetime).tz = none ∧
      strEndsIn "-0000" (rfc2822_date ⟨2009, 1, 1, 12, 0, 0, none⟩)) ∧
    ((⟨2009, 1, 1, 12, 0, 0, some ⟨0, 19800⟩⟩ : Datetime).tz = some ⟨0, 19800⟩ ∧
      strEndsIn "+0530" (rfc2822_date ⟨2009, 1, 1, 12, 0, 0, some ⟨0, 19800⟩⟩)) ∧
    ((⟨2009, 1, 1, 12, 0, 0, some ⟨0, 0⟩⟩ : Datetime).tz = some ⟨0, 0⟩ ∧
      strEndsIn "+0000" (rfc2822_date ⟨2009, 1, 1, 12, 0, 0, some ⟨0, 0⟩⟩) ∧
      ¬ strEndsIn "-0000" (rfc2822_date ⟨2009, 1, 1, 12, 0, 0, some ⟨0, 0⟩⟩)) :=
  ⟨⟨rfl, rfc2822_date_spec.1 _ rfl⟩,
   ⟨rfl, rfc2822_date_spec.2.2.1 _ rfl⟩,
   ⟨rfl, rfc2822_date_spec.2.2.2 _ rfl⟩⟩

/-! ## Claim C3: the RFC 3339 formatter -/

/-- C3: a timezone-naive timestamp is rendered as
`YYYY-MM-DDTHH:MM:SS` followed by literal `Z`; a timezone-aware one gets a
signed `+HH:MM`/`-HH:MM` offset from the same divmod arithmetic as the
RFC 2822 formatter; UTC offset -8:00 ends in `-08:00`; a zero offset with
tzinfo present yields `+00:00`, never the naive `Z` branch. -/
theorem rfc3339_date_spec :
    (∀ dt : Datetime, dt.tz = none →
      rfc3339_date dt = strftime3339 dt ++ "Z" ∧ strEndsIn "Z" (rfc3339_date dt)) ∧
    (∀ (dt : Datetime) (off : Timedelta), dt.tz = some off →
      rfc3339_date dt = strftime3339 dt ++
        signedPad3 ((off.days * 1440 + (off.seconds / 60 : Nat)).fdiv 60) ++ ":" ++
        pad2 ((off.days * 1440 + (off.seconds / 60 : Nat)).fmod 60).toNat) ∧
    (∀ dt : Datetime, dt.tz = some ⟨-1, 57600⟩ → strEndsIn "-08:00" (rfc3339_date dt)) ∧
    (∀ dt : Datetime, dt.tz = some ⟨0, 0⟩ →
      strEndsIn "+00:00" (rfc3339_date dt) ∧ ¬ strEndsIn "Z" (rfc3339_date dt)) := by
  have hmin : ∀ off : Timedelta,
      offsetMinutes off = off.days * 1440 + (off.seconds / 60 : Nat) := by
    intro off
    unfold offsetMinutes
    ring_nf
  have haware : ∀ (dt : Datetime) (off : Timedelta), dt.tz = some off →
      rfc3339_date dt = strftime3339 dt ++
        signedPad3 ((off.days * 1440 + (off.seconds / 60 : Nat)).fdiv 60) ++ ":" ++
        pad2 ((off.days * 1440 + (off.seconds / 60 : Nat)).fmod 60).toNat := by
    intro dt off h
    unfold rfc3339_date
    rw [h, ← hmin off]
  refine ⟨?_, haware, ?_, ?_⟩
  · intro dt h
    unfold rfc3339_date
    rw [h]
    exact ⟨rfl, strEndsIn_append _ _⟩
  · intro dt h
    have heq : rfc3339_date dt = strftime3339 dt ++ "-08:00" := by
      rw [haware dt ⟨-1, 57600⟩ h, String.append_assoc, String.append_assoc]
      exact append_right_eq _ (by decide)
    exact strEndsIn_of_append_eq heq
  · intro dt h
    have heq : rfc3339_date dt = strftime3339 dt ++ "+00:00" := by
      rw [haware dt ⟨0, 0⟩ h, String.append_assoc, String.append_assoc]
      exact append_right_eq _ (by decide)
    constructor
    · exact strEndsIn_of_append_eq heq
    · intro hcon
      obtain ⟨a, ha⟩ := hcon
      have h1 : (rfc3339_date dt).data.getLast? = some 'Z' := by
        rw [← ha, List.getLast?_append]
        rfl
      have h2 : (rfc3339_date dt).data.getLast? = some '0' := by
        rw [heq, String.data_append, List.getLast?_append]
        rfl
      rw [h1] at h2
      exact absurd h2 (by decide)

/-- Witness for C3 at concrete timestamps: a naive one, one at UTC-8:00 and
one at UTC+0:00. -/
theorem rfc3339_date_spec_witness :
    ((⟨2009, 1, 1, 12, 0, 0, none⟩ : Datetime).tz = none ∧
      rfc3339_date ⟨2009, 1, 1, 12, 0, 0, none⟩ =
        strftime3339 ⟨2009, 1, 1, 12, 0, 0, none⟩ ++ "Z") ∧
    ((⟨2009, 1, 1, 12, 0, 0, some ⟨-1, 57600⟩⟩ : Datetime).tz = some ⟨-1, 57600⟩ ∧
      strEndsIn "-08:00" (rfc3339_date ⟨2009, 1, 1, 12, 0, 0, some ⟨-1, 57600⟩⟩)) ∧
    ((⟨2009, 1, 1, 12, 0, 0, some ⟨0, 0⟩⟩ : Datetime).tz = some ⟨0, 0⟩ ∧
      strEndsIn "+00:00" (rfc3339_date ⟨2009, 1, 1, 12, 0, 0, some ⟨0, 0⟩⟩) ∧
      ¬ strEndsIn "Z" (rfc3339_date ⟨2009, 1, 1, 12, 0, 0, some ⟨0, 0⟩⟩)) :=
  ⟨⟨rfl, (rfc3339_date_spec.1 _ rfl).1⟩,
   ⟨rfl, rfc3339_date_spec.2.2.1 _ rfl⟩,
   ⟨rfl, rfc3339_date_spec.2.2.2 _ rfl⟩⟩

/-! ## Claim C5: the tag-URI generator -/

/-- C5: on `http://example.com/path#frag` with date 2009-01-01 the
generator yields `tag:example.com,2009-01-01:/path/frag`; with no date,
`tag:example.com:/path/frag`; and in general the output is
`tag:<host>[,<YYYY-MM-DD>]:<path>/<fragment>` over the parsed URI, with
the comma-prefixed date segment present exactly when a date is given. -/
theorem get_tag_uri_spec :
    get_tag_uri "http://example.com/path#frag" (some ⟨2009, 1, 1, 0, 0, 0, none⟩) =
      "tag:example.com,2009-01-01:/path/frag" ∧
    get_tag_uri "http://example.com/path#frag" none = "tag:example.com:/path/frag" ∧
    (∀ (url : String) (d : Datetime),
      get_tag_uri url (some d) =
        "tag:" ++ pyFmtS (urlHostname (urlsplitM url).netloc) ++ "," ++ strftimeYmd d ++
        ":" ++ String.mk (urlsplitM url).path ++ "/" ++ String.mk (urlsplitM url).fragment) ∧
    (∀ url : String,
      get_tag_uri url none =
        "tag:" ++ pyFmtS (urlHostname (urlsplitM url).netloc) ++
        ":" ++ String.mk (urlsplitM url).path ++ "/" ++ String.mk (urlsplitM url).fragment) := by
  refine ⟨by decide, by decide, ?_, ?_⟩
  · intro url d
    simp [get_tag_uri, String.append_assoc]
  · intro url
    simp [get_tag_uri, String.append_assoc]

/-! ## Claim C4: `latest_post_date` -/

theorem insertDt_perm (a : Datetime) (l : List Datetime) :
    (insertDt a l).Perm (a :: l) := by
  induction l with
  | nil => exact List.Perm.refl _
  | cons x xs ih =>
    unfold insertDt
    split
    · exact List.Perm.refl _
    · exact (ih.cons x).trans (List.Perm.swap a x xs)

theorem pySortDt_perm (l : List Datetime) : (pySortDt l).Perm l := by
  induction l with
  | nil => exact List.Perm.refl _
  | cons x xs ih =>
    exact (insertDt_perm x (pySortDt xs)).trans (ih.cons x)

theorem insertDt_pairwise (a : Datetime) (l : List Datetime)
    (h : l.Pairwise (fun u v => dtKey u ≤ dtKey v)) :
    (insertDt a l).Pairwise (fun u v => dtKey u ≤ dtKey v) := by
  induction l with
  | nil => simp [insertDt]
  | cons x xs ih =>
    unfold insertDt
    rcases List.pairwise_cons.mp h with ⟨hx, hxs⟩
    split
    · rename_i hle
      refine List.pairwise_cons.mpr ⟨?_, h⟩
      intro y hy
      rcases List.mem_cons.mp hy with rfl | hy2
      · exact hle
      · exact le_trans hle (hx y hy2)
    · rename_i hgt
      refine List.pairwise_cons.mpr ⟨?_, ih hxs⟩
      intro y hy
      have hy3 := (insertDt_perm a xs).mem_iff.mp hy
      rcases List.mem_cons.mp hy3 with rfl | hy4
      · exact le_of_not_le hgt
      · exact hx y hy4

theorem pySortDt_pairwise (l : List Datetime) :
    (pySortDt l).Pairwise (fun u v => dtKey u ≤ dtKey v) := by
  induction l with
  | nil => simp [pySortDt]
  | cons x xs ih => exact insertDt_pairwise x (pySortDt xs) ih

theorem getLastD_mem_of_ne_nil {α : Type} (l : List α) (d : α) (h : l ≠ []) :
    l.getLastD d ∈ l := by
  have key : ∀ (m : List α) (a : α), m.getLastD a = a ∨ m.getLastD a ∈ m := by
    intro m
    induction m with
    | nil => intro a; exact Or.inl rfl
    | cons x xs ih =>
      intro a
      rcases ih x with h1 | h1
      · exact Or.inr (by rw [List.getLastD_cons, h1]; exact List.mem_cons_self x xs)
      · exact Or.inr (by rw [List.getLastD_cons]; exact List.mem_cons_of_mem x h1)
  match l, h with
  | x :: xs, _ =>
    rw [List.getLastD_cons]
    rcases key xs x with h1 | h1
    · rw [h1]
      exact List.mem_cons_self x xs
    · exact List.mem_cons_of_mem x h1

theorem le_getLastD_of_pairwise (l : List Datetime) (d : Datetime)
    (h : l.Pairwise (fun u v => dtKey u ≤ dtKey v)) :
    ∀ y ∈ l, dtKey y ≤ dtKey (l.getLastD d) := by
  induction l generalizing d with
  | nil => intro y hy; exact absurd hy (List.not_mem_nil y)
  | cons x xs ih =>
    intro y hy
    rw [List.getLastD_cons]
    rcases List.pairwise_cons.mp h with ⟨hx, hxs⟩
    rcases List.mem_cons.mp hy with rfl | hy2
    · cases xs with
      | nil => exact le_refl _
      | cons z zs =>
        exact hx _ (getLastD_mem_of_ne_nil (z :: zs) y (by simp))
    · exact ih x hxs y hy2

/-- `latest_post_date` takes the sorted-last branch whenever some pubdate
exists. -/
theorem latest_post_date_eq (now : Datetime) (items : List Item)
    (h : items.filterMap Item.pubdate ≠ []) :
    latest_post_date now items =
      (pySortDt (items.filterMap Item.pubdate)).getLastD now := by
  unfold latest_post_date
  rw [if_pos]
  exact List.length_pos.mpr h

/-- The returned date is one of the pubdates and bounds all of them. -/
theorem latest_post_date_max (now : Datetime) (items : List Item)
    (h : items.filterMap Item.pubdate ≠ []) :
    latest_post_date now items ∈ items.filterMap Item.pubdate ∧
    ∀ p ∈ items.filterMap Item.pubdate,
      dtKey p ≤ dtKey (latest_post_date now items) := by
  have hsortne : pySortDt (items.filterMap Item.pubdate) ≠ [] := by
    intro hnil
    have := (pySortDt_perm (items.filterMap Item.pubdate)).length_eq
    rw [hnil] at this
    exact h (List.eq_nil_of_length_eq_zero this.symm)
  rw [latest_post_date_eq now items h]
  constructor
  · exact (pySortDt_perm _).mem_iff.mp
      (getLastD_mem_of_ne_nil _ now hsortne)
  · intro p hp
    exact le_getLastD_of_pairwise _ now (pySortDt_pairwise _) p
      ((pySortDt_perm _).mem_iff.mpr hp)

/-- C4: when at least one item has a pubdate, `latest_post_date()` returns
a maximum pubdate (it is the pubdate of some item and bounds every pubdate
in the datetime order), and the result does not depend on the order in
which the items were added (any permutation of the item list yields the
same instant). -/
theorem latest_post_date_spec (now : Datetime) (items items2 : List Item)
    (hne : ∃ i ∈ items, i.pubdate ≠ none)
    (hperm : items.Perm items2) :
    (∃ i ∈ items, i.pubdate = some (latest_post_date now items)) ∧
    (∀ i ∈ items, ∀ p, i.pubdate = some p →
      dtKey p ≤ dtKey (latest_post_date now items)) ∧
    dtKey (latest_post_date now items2) = dtKey (latest_post_date now items) := by
  have hupd : items.filterMap Item.pubdate ≠ [] := by
    obtain ⟨i, hi, hp⟩ := hne
    obtain ⟨p, hp2⟩ := Option.ne_none_iff_exists'.mp hp
    intro hnil
    have hmem : p ∈ items.filterMap Item.pubdate :=
      List.mem_filterMap.mpr ⟨i, hi, hp2⟩
    rw [hnil] at hmem
    exact absurd hmem (List.not_mem_nil p)
  have hpm := hperm.filterMap Item.pubdate
  have hupd2 : items2.filterMap Item.pubdate ≠ [] := by
    intro hnil
    rw [hnil] at hpm
    exact hupd hpm.eq_nil
  obtain ⟨hmem, hmax⟩ := latest_post_date_max now items hupd
  obtain ⟨hmem2, hmax2⟩ := latest_post_date_max now items2 hupd2
  refine ⟨?_, ?_, ?_⟩
  · obtain ⟨i, hi, hp⟩ := List.mem_filterMap.mp hmem
    exact ⟨i, hi, hp⟩
  · intro i hi p hp
    exact hmax p (List.mem_filterMap.mpr ⟨i, hi, hp⟩)
  · exact le_antisymm
      (hmax _ (hpm.mem_iff.mpr hmem2))
      (hmax2 _ (hpm.mem_iff.mp hmem))

/-- Sample item used by witnesses: only title/link/description, pubdate and
unique id populated. -/
def mkItem (title link description : Option String) (pubdate : Option Datetime)
    (unique_id : Option String) : Item :=
  SyndicationFeed.add_item title link description none none none pubdate
    none unique_id none [] none none

/-- Witness for C4: three items, two with pubdates, evaluated against a
reordering of the same items. -/
theorem latest_post_date_spec_witness :
    ((∃ i ∈ [mkItem (some "a") (some "http://x/a") (some "A")
               (some ⟨2009, 1, 1, 0, 0, 0, none⟩) none,
             mkItem (some "b") (some "http://x/b") (some "B")
               (some ⟨2010, 6, 15, 12, 30, 0, none⟩) none,
             mkItem (some "c") (some "http://x/c") (some "C") none none],
        i.pubdate ≠ none) ∧
      List.Perm
        [mkItem (some "a") (some "http://x/a") (some "A")
           (some ⟨2009, 1, 1, 0, 0, 0, none⟩) none,
         mkItem (some "b") (some "http://x/b") (some "B")
           (some ⟨2010, 6, 15, 12, 30, 0, none⟩) none,
         mkItem (some "c") (some "http://x/c") (some "C") none none]
        [mkItem (some "c") (some "http://x/c") (some "C") none none,
         mkItem (some "b") (some "http://x/b") (some "B")
           (some ⟨2010, 6, 15, 12, 30, 0, none⟩) none,
         mkItem (some "a") (some "http://x/a") (some "A")
           (some ⟨2009, 1, 1, 0, 0, 0, none⟩) none]) ∧
    ((∃ i ∈ [mkItem (some "a") (some "http://x/a") (some "A")
               (some ⟨2009, 1, 1, 0, 0, 0, none⟩) none,
             mkItem (some "b") (some "http://x/b") (some "B")
               (some ⟨2010, 6, 15, 12, 30, 0, none⟩) none,
             mkItem (some "c") (some "http://x/c") (some "C") none none],
        i.pubdate = some (latest_post_date ⟨2024, 1, 1, 0, 0, 0, none⟩
          [mkItem (some "a") (some "http://x/a") (some "A")
             (some ⟨2009, 1, 1, 0, 0, 0, none⟩) none,
           mkItem (some "b") (some "http://x/b") (some "B")
             (some ⟨2010, 6, 15, 12, 30, 0, none⟩) none,
           mkItem (some "c") (some "http://x/c") (some "C") none none])) ∧
      (∀ i ∈ [mkItem (some "a") (some "http://x/a") (some "A")
                (some ⟨2009, 1, 1, 0, 0, 0, none⟩) none,
              mkItem (some "b") (some "http://x/b") (some "B")
                (some ⟨2010, 6, 15, 12, 30, 0, none⟩) none,
              mkItem (some "c") (some "http://x/c") (some "C") none none],
        ∀ p, i.pubdate = some p →
          dtKey p ≤ dtKey (latest_post_date ⟨2024, 1, 1, 0, 0, 0, none⟩
            [mkItem (some "a") (some "http://x/a") (some "A")
               (some ⟨2009, 1, 1, 0, 0, 0, none⟩) none,
             mkItem (some "b") (some "http://x/b") (some "B")
               (some ⟨2010, 6, 15, 12, 30, 0, none⟩) none,
             mkItem (some "c") (some "http://x/c") (some "C") none none])) ∧
      dtKey (latest_post_date ⟨2024, 1, 1, 0, 0, 0, none⟩
        [mkItem (some "c") (some "http://x/c") (some "C") none none,
         mkItem (some "b") (some "http://x/b") (some "B")
           (some ⟨2010, 6, 15, 12, 30, 0, none⟩) none,
         mkItem (some "a") (some "http://x/a") (some "A")
           (some ⟨2009, 1, 1, 0, 0, 0, none⟩) none]) =
      dtKey (latest_post_date ⟨2024, 1, 1, 0, 0, 0, none⟩
        [mkItem (some "a") (some "http://x/a") (some "A")
           (some ⟨2009, 1, 1, 0, 0, 0, none⟩) none,
         mkItem (some "b") (some "http://x/b") (some "B")
           (some ⟨2010, 6, 15, 12, 30, 0, none⟩) none,
         mkItem (some "c") (some "http://x/c") (some "C") none none])) :=
  ⟨⟨by decide, by decide⟩,
    latest_post_date_spec ⟨2024, 1, 1, 0, 0, 0, none⟩ _ _ (by decide) (by decide)⟩

/-! ## Claim C7: the RSS 0.91 per-item elements -/

/-- C7: whatever optional fields an item carries, the RSS 0.91 per-item
renderer only ever opens `title`, `link` and `description` elements — in
particular never `author`, `pubDate`, `guid`, `ttl`, `enclosure` or
`category`. -/
theorem rss091_item_elements_spec (item : Item) (n : String)
    (a : List (String × String))
    (h : XmlEvent.start n a ∈ (RssUserland091Feed.add_item_elements item).1) :
    n = "title" ∨ n = "link" ∨ n = "description" := by
  unfold RssUserland091Feed.add_item_elements emitAll at h
  cases ht : item.title <;> cases hl : item.link <;> cases hd : item.description <;>
    simp [ht, hl, hd, eseq, addQuickElement, optElem, resolveAttrs] at h <;>
    tauto

/-- Witness for C7: an item with every optional field populated still only
opens the three allowed elements; instantiated at its `title` event. -/
theorem rss091_item_elements_spec_witness :
    XmlEvent.start "title" [] ∈
      (RssUserland091Feed.add_item_elements
        (SyndicationFeed.add_item (some "I") (some "http://x/i") (some "ID")
          (some "e@x") (some "E X") (some "http://x/e")
          (some ⟨2009, 1, 1, 0, 0, 0, none⟩) (some "http://x/c") (some "guid1")
          (some (Enclosure.init (some "http://x/a.mp3") (some "123")
            (some "audio/mpeg")))
          ["cat1", "cat2"] (some "©") (some "60"))).1 ∧
    ("title" = "title" ∨ "title" = "link" ∨ "title" = "description") :=
  ⟨by decide,
    rss091_item_elements_spec
      (SyndicationFeed.add_item (some "I") (some "http://x/i") (some "ID")
        (some "e@x") (some "E X") (some "http://x/e")
        (some ⟨2009, 1, 1, 0, 0, 0, none⟩) (some "http://x/c") (some "guid1")
        (some (Enclosure.init (some "http://x/a.mp3") (some "123")
          (some "audio/mpeg")))
        ["cat1", "cat2"] (some "©") (some "60"))
      "title" [] (by decide)⟩

/-! ## Claims C8/C9: `iri_to_uri` -/

theorem safeByte_lt_128 {b : Nat} (h : safeByte b = true) : b < 128 := by
  unfold safeByte at h
  simp only [Bool.or_eq_true, Bool.and_eq_true, decide_eq_true_eq, beq_iff_eq] at h
  omega

theorem toNat_ofNat_of_lt {b : Nat} (h : b < 128) : (Char.ofNat b).toNat = b := by
  have hv : b.isValidChar := Or.inl (by omega)
  rw [Char.ofNat, dif_pos hv]
  simp [Char.ofNatAux, Char.toNat, UInt32.toNat, BitVec.toNat_ofNatLt]

theorem hexDigit_ascii_safe (n : Nat) :
    (hexDigit n).toNat < 128 ∧ safeByte (hexDigit n).toNat = true := by
  have hall : ∀ c ∈ hexDigits, c.toNat < 128 ∧ safeByte c.toNat = true := by decide
  unfold hexDigit
  cases hg : hexDigits[n]? with
  | some c =>
    rw [List.getD_eq_getElem?_getD, hg, Option.getD_some]
    exact hall c (List.getElem?_mem hg)
  | none =>
    rw [List.getD_eq_getElem?_getD, hg, Option.getD_none]
    decide

theorem quoteByteChars_ascii (b : Nat) :
    ∀ c ∈ quoteByteChars b, c.toNat < 128 := by
  intro c hc
  unfold quoteByteChars at hc
  by_cases hs : safeByte b = true
  · rw [if_pos hs] at hc
    rcases List.mem_singleton.mp hc with rfl
    rw [toNat_ofNat_of_lt (safeByte_lt_128 hs)]
    exact safeByte_lt_128 hs
  · rw [if_neg hs] at hc
    simp only [List.mem_cons, List.not_mem_nil, or_false] at hc
    rcases hc with rfl | rfl | rfl
    · decide
    · exact (hexDigit_ascii_safe _).1
    · exact (hexDigit_ascii_safe _).1

theorem quoteByteChars_safe (b : Nat) :
    ∀ c ∈ quoteByteChars b, safeByte c.toNat = true := by
  intro c hc
  unfold quoteByteChars at hc
  by_cases hs : safeByte b = true
  · rw [if_pos hs] at hc
    rcases List.mem_singleton.mp hc with rfl
    rw [toNat_ofNat_of_lt (safeByte_lt_128 hs)]
    exact hs
  · rw [if_neg hs] at hc
    simp only [List.mem_cons, List.not_mem_nil, or_false] at hc
    rcases hc with rfl | rfl | rfl
    · decide
    · exact (hexDigit_ascii_safe _).2
    · exact (hexDigit_ascii_safe _).2

theorem quote_utf8_of_safe (l : List Char)
    (h : ∀ c ∈ l, safeByte c.toNat = true) :
    (l.flatMap utf8EncodeCharM).flatMap quoteByteChars = l := by
  induction l with
  | nil => rfl
  | cons c cs ih =>
    have hc := h c (List.mem_cons_self c cs)
    have hlt : c.toNat < 128 := safeByte_lt_128 hc
    have henc : utf8EncodeCharM c = [c.toNat] := by
      unfold utf8EncodeCharM
      rw [if_pos (by omega)]
    have hq : quoteByteChars c.toNat = [c] := by
      unfold quoteByteChars
      rw [if_pos hc, Char.ofNat_toNat]
    rw [List.flatMap_cons, List.flatMap_append, henc]
    rw [show ([c.toNat].flatMap quoteByteChars) = quoteByteChars c.toNat from by
      simp [List.flatMap_cons]]
    rw [hq]
    rw [ih (fun x hx => h x (List.mem_cons_of_mem c hx))]
    rfl

theorem iri_to_uri_safe_id (s : String)
    (h : ∀ c ∈ s.data, safeByte c.toNat = true) :
    iri_to_uri (some s) = some s := by
  have hdef : iri_to_uri (some s) =
      some (String.mk ((s.data.flatMap utf8EncodeCharM).flatMap quoteByteChars)) := rfl
  rw [hdef, quote_utf8_of_safe s.data h]

theorem iri_to_uri_output_safe (s : String) :
    ∀ c ∈ (pyQuote (smart_str s)).data, safeByte c.toNat = true := by
  intro c hc
  unfold pyQuote smart_str utf8Encode at hc
  obtain ⟨b, _, hcb⟩ := List.mem_flatMap.mp hc
  exact quoteByteChars_safe b c hcb

/-- `iri_to_uri` is idempotent: its output contains only bytes in the safe
set (`%` itself is in the source's `safe` argument), so re-encoding is the
identity. -/
theorem iri_to_uri_idem (o : Option String) :
    iri_to_uri (iri_to_uri o) = iri_to_uri o := by
  cases o with
  | none => rfl
  | some s => exact iri_to_uri_safe_id _ (iri_to_uri_output_safe s)

/-- The characters the spec lists as preserved unescaped:
`/#%[]=:;$&()+,!?*@'~`. -/
def reservedSafeChars : List Char :=
  ['/', '#', '%', '[', ']', '=', ':', ';', '$', '&', '(', ')', '+', ',',
   '!', '?', '*', '@', '\'', '~']

/-- C8: `iri_to_uri` leaves `None` unchanged; on any Unicode string it
returns an ASCII-safe string (every output character is below 128); and the
characters `/#%[]=:;$&()+,!?*@'~` are left unescaped (a string made only of
them is returned verbatim).  On this domain the embedding is a total
function, matching the claim that the operation never raises. -/
theorem iri_to_uri_spec :
    iri_to_uri none = none ∧
    (∀ s t : String, iri_to_uri (some s) = some t → ∀ c ∈ t.data, c.toNat < 128) ∧
    (∀ s : String, (∀ c ∈ s.data, c ∈ reservedSafeChars) →
      iri_to_uri (some s) = some s) := by
  refine ⟨rfl, ?_, ?_⟩
  · intro s t h c hc
    have ht : t = pyQuote (smart_str s) := by
      have : some (pyQuote (smart_str s)) = some t := h
      exact (Option.some.injEq _ _ ▸ this).symm
    subst ht
    unfold pyQuote smart_str utf8Encode at hc
    obtain ⟨b, _, hcb⟩ := List.mem_flatMap.mp hc
    exact quoteByteChars_ascii b c hcb
  · intro s hs
    have hres : ∀ c ∈ reservedSafeChars, safeByte c.toNat = true := by decide
    exact iri_to_uri_safe_id s (fun c hc => hres c (hs c hc))

/-- Witness for C8: a string with a space and a non-ASCII letter is
percent-encoded to ASCII, and a string of only the preserved characters is
returned verbatim. -/
theorem iri_to_uri_spec_witness :
    iri_to_uri none = none ∧
    (iri_to_uri (some "a b/é") = some "a%20b/%C3%A9" ∧
      ∀ c ∈ ("a%20b/%C3%A9" : String).data, c.toNat < 128) ∧
    ((∀ c ∈ ("/#:@'~" : String).data, c ∈ reservedSafeChars) ∧
      iri_to_uri (some "/#:@'~") = some "/#:@'~") :=
  ⟨iri_to_uri_spec.1,
   ⟨by decide, iri_to_uri_spec.2.1 "a b/é" _ (by decide)⟩,
   ⟨by decide, iri_to_uri_spec.2.2 "/#:@'~" (by decide)⟩⟩

/-- C9, counterexample: constructing a feed whose link contains a space and
no `feed_guid` stores the percent-encoded link in the `link` field but the
*raw, un-encoded* link as the feed's globally unique identifier, so the
`id` field is not percent-encoded (re-encoding changes it). -/
theorem feed_guid_raw_counterexample :
    (SyndicationFeed.init (some "T") (some "http://x/a b") (some "D") none none
        none none none [] none none none none).link = some "http://x/a%20b" ∧
    (SyndicationFeed.init (some "T") (some "http://x/a b") (some "D") none none
        none none none [] none none none none).id = some "http://x/a b" ∧
    iri_to_uri (SyndicationFeed.init (some "T") (some "http://x/a b") (some "D")
        none none none none none [] none none none none).id ≠
      (SyndicationFeed.init (some "T") (some "http://x/a b") (some "D") none none
        none none none [] none none none none).id := by
  exact ⟨by decide, by decide, by decide⟩

/-- C9, amended: after construction the URI-valued fields `link`,
`author_link` and `feed_url` hold percent-encoded values (re-applying the
encoder leaves them unchanged, so no renderer needs to re-encode them), but
the feed's globally unique identifier defaults to the *raw* link (Python
`feed_guid or link`), not the encoded one, when no truthy `feed_guid` is
given. -/
theorem feed_uri_fields_encoded (title link description language author_email
    author_name author_link subtitle : Option String) (categories : List String)
    (feed_url feed_copyright feed_guid ttl : Option String) :
    iri_to_uri (SyndicationFeed.init title link description language author_email
        author_name author_link subtitle categories feed_url feed_copyright
        feed_guid ttl).link =
      (SyndicationFeed.init title link description language author_email
        author_name author_link subtitle categories feed_url feed_copyright
        feed_guid ttl).link ∧
    iri_to_uri (SyndicationFeed.init title link description language author_email
        author_name author_link subtitle categories feed_url feed_copyright
        feed_guid ttl).author_link =
      (SyndicationFeed.init title link description language author_email
        author_name author_link subtitle categories feed_url feed_copyright
        feed_guid ttl).author_link ∧
    iri_to_uri (SyndicationFeed.init title link description language author_email
        author_name author_link subtitle categories feed_url feed_copyright
        feed_guid ttl).feed_url =
      (SyndicationFeed.init title link description language author_email
        author_name author_link subtitle categories feed_url feed_copyright
        feed_guid ttl).feed_url ∧
    (SyndicationFeed.init title link description language author_email
        author_name author_link subtitle categories feed_url feed_copyright
        feed_guid ttl).id = pyOrS feed_guid link :=
  ⟨iri_to_uri_idem link, iri_to_uri_idem author_link, iri_to_uri_idem feed_url, rfl⟩

/-! ## Emission toolkit lemmas -/

theorem eseq_ok {a : EmitResult} (b : EmitResult) (h : a.2 = none) :
    eseq a b = (a.1 ++ b.1, b.2) := by
  unfold eseq
  rw [h]

theorem eseq_err {a : EmitResult} (b : EmitResult) {e : String}
    (h : a.2 = some e) : eseq a b = a := by
  unfold eseq
  rw [h]

theorem emitAll_cons (a : EmitResult) (l : List EmitResult) :
    emitAll (a :: l) = eseq a (emitAll l) := rfl

theorem emitAll_snd_cons_ok (a : EmitResult) (l : List EmitResult)
    (h : a.2 = none) : (emitAll (a :: l)).2 = (emitAll l).2 := by
  rw [emitAll_cons, eseq_ok _ h]

theorem emitAll_snd_cons_err (a : EmitResult) (l : List EmitResult) {e : String}
    (h : a.2 = some e) : (emitAll (a :: l)).2 = some e := by
  rw [emitAll_cons, eseq_err _ h, h]

theorem emitAll_fst_cons_ok (a : EmitResult) (l : List EmitResult)
    (h : a.2 = none) : (emitAll (a :: l)).1 = a.1 ++ (emitAll l).1 := by
  rw [emitAll_cons, eseq_ok _ h]

theorem emitAll_fst_cons_any (a : EmitResult) (l : List EmitResult) :
    ∃ r, (emitAll (a :: l)).1 = a.1 ++ r := by
  cases ha : a.2 with
  | none => exact ⟨(emitAll l).1, emitAll_fst_cons_ok a l ha⟩
  | some e =>
    refine ⟨[], ?_⟩
    rw [emitAll_cons, eseq_err _ ha, List.append_nil]

theorem addQuick_nil_snd (n : String) (c : Option String) :
    (addQuickElement n c []).2 = none := rfl

theorem optElem_snd (n : String) (v : Option String) :
    (optElem n v).2 = none := by
  cases v <;> rfl

theorem emitAll_snd_none (l : List EmitResult)
    (h : ∀ x ∈ l, x.2 = none) : (emitAll l).2 = none := by
  induction l with
  | nil => rfl
  | cons a t ih =>
    rw [emitAll_snd_cons_ok a t (h a (List.mem_cons_self a t))]
    exact ih (fun x hx => h x (List.mem_cons_of_mem a hx))

theorem exists_split_append_left {m : List XmlEvent} {ev : XmlEvent}
    (hm : ∃ f b, m = f ++ ev :: b) (t : List XmlEvent) :
    ∃ f b, t ++ m = f ++ ev :: b := by
  obtain ⟨f, b, rfl⟩ := hm
  exact ⟨t ++ f, b, by simp [List.append_assoc]⟩

theorem exists_split_append_right {m : List XmlEvent} {ev : XmlEvent}
    (hm : ∃ f b, m = f ++ ev :: b) (r : List XmlEvent) :
    ∃ f b, m ++ r = f ++ ev :: b := by
  obtain ⟨f, b, rfl⟩ := hm
  exact ⟨f, b ++ r, by simp [List.append_assoc]⟩

/-! ## Claim C10: the self-referencing `atom:link` and `feed_url` -/

/-- With no `feed_url`, both RSS writes raise at the `atom:link` element
whose `href` attribute is `None`. -/
theorem rssWrite_feed_url_none (version : String) (aie : Item → EmitResult)
    (feed : Feed) (items : List Item) (now : Datetime)
    (h : feed.feed_url = none) :
    (RssFeed.write version aie feed items now).2 = some attrNoneErr := by
  have hroot : (RssFeed.add_root_elements feed (latest_post_date now items)).2 =
      some attrNoneErr := by
    unfold RssFeed.add_root_elements
    rw [emitAll_snd_cons_ok _ _ (addQuick_nil_snd _ _),
        emitAll_snd_cons_ok _ _ (addQuick_nil_snd _ _),
        emitAll_snd_cons_ok _ _ (addQuick_nil_snd _ _), h]
    exact emitAll_snd_cons_err _ _ rfl
  unfold RssFeed.write
  rw [emitAll_snd_cons_ok _ _ rfl, emitAll_snd_cons_ok _ _ rfl]
  exact emitAll_snd_cons_err _ _ hroot

/-- With a `feed_url`, the write's event trace opens the `atom:link`
element with `rel="self"` and `href` equal to the stored `feed_url`. -/
theorem rssWrite_atomlink_event (version : String) (aie : Item → EmitResult)
    (feed : Feed) (items : List Item) (now : Datetime) (u : String)
    (h : feed.feed_url = some u) :
    ∃ f b, (RssFeed.write version aie feed items now).1 =
      f ++ XmlEvent.start "atom:link" [("rel", "self"), ("href", u)] :: b := by
  have hroot : ∃ f b,
      (RssFeed.add_root_elements feed (latest_post_date now items)).1 =
        f ++ XmlEvent.start "atom:link" [("rel", "self"), ("href", u)] :: b := by
    unfold RssFeed.add_root_elements
    rw [emitAll_fst_cons_ok _ _ (addQuick_nil_snd _ _),
        emitAll_fst_cons_ok _ _ (addQuick_nil_snd _ _),
        emitAll_fst_cons_ok _ _ (addQuick_nil_snd _ _), h,
        emitAll_fst_cons_ok _ _ rfl]
    refine exists_split_append_left (exists_split_append_left
      (exists_split_append_left ⟨[], _, rfl⟩ _) _) _
  unfold RssFeed.write
  rw [emitAll_fst_cons_ok _ _ rfl, emitAll_fst_cons_ok _ _ rfl]
  obtain ⟨r, hr⟩ := emitAll_fst_cons_any
    (RssFeed.add_root_elements feed (latest_post_date now items))
    [RssFeed.write_items aie items, ([XmlEvent.close "channel"], none),
     ([XmlEvent.close "rss"], none)]
  rw [hr]
  exact exists_split_append_left (exists_split_append_left
    (exists_split_append_right hroot r) _) _

/-- C10: both RSS variants emit the self-referencing `atom:link`
unconditionally with `href` equal to the stored `feed_url`: when a
`feed_url` is present the event appears in the trace, when it is absent
the write raises the `AttributeError` from quoting the `None` attribute
value, and consequently a write can only complete without error when a
`feed_url` was supplied. -/
theorem rss_write_feed_url_spec (feed : Feed) (items : List Item) (now : Datetime) :
    (feed.feed_url = none →
      (Rss201rev2Feed.write feed items now).2 = some attrNoneErr ∧
      (RssUserland091Feed.write feed items now).2 = some attrNoneErr) ∧
    (∀ u, feed.feed_url = some u →
      (∃ f b, (Rss201rev2Feed.write feed items now).1 =
        f ++ XmlEvent.start "atom:link" [("rel", "self"), ("href", u)] :: b) ∧
      (∃ f b, (RssUserland091Feed.write feed items now).1 =
        f ++ XmlEvent.start "atom:link" [("rel", "self"), ("href", u)] :: b)) ∧
    ((Rss201rev2Feed.write feed items now).2 = none → feed.feed_url ≠ none) ∧
    ((RssUserland091Feed.write feed items now).2 = none → feed.feed_url ≠ none) := by
  refine ⟨?_, ?_, ?_, ?_⟩
  · intro h
    exact ⟨rssWrite_feed_url_none _ _ feed items now h,
           rssWrite_feed_url_none _ _ feed items now h⟩
  · intro u h
    exact ⟨rssWrite_atomlink_event _ _ feed items now u h,
           rssWrite_atomlink_event _ _ feed items now u h⟩
  · intro hok hnone
    have hok2 : (RssFeed.write "2.0" Rss201rev2Feed.add_item_elements
        feed items now).2 = none := hok
    rw [rssWrite_feed_url_none _ _ feed items now hnone] at hok2
    exact Option.noConfusion hok2
  · intro hok hnone
    have hok2 : (RssFeed.write "0.91" RssUserland091Feed.add_item_elements
        feed items now).2 = none := hok
    rw [rssWrite_feed_url_none _ _ feed items now hnone] at hok2
    exact Option.noConfusion hok2

/-- Witness for C10 at two concrete feeds (one without and one with a
`feed_url`) and one item. -/
theorem rss_write_feed_url_spec_witness :
    ((SyndicationFeed.init (some "T") (some "http://x/") (some "D") none none
        none none none [] none none none none).feed_url = none ∧
      (Rss201rev2Feed.write
        (SyndicationFeed.init (some "T") (some "http://x/") (some "D") none none
          none none none [] none none none none)
        [mkItem (some "I") (some "http://x/i") (some "ID") none none]
        ⟨2024, 1, 1, 0, 0, 0, none⟩).2 = some attrNoneErr) ∧
    ((SyndicationFeed.init (some "T") (some "http://x/") (some "D") none none
        none none none [] (some "http://test.org/rss") none none none).feed_url =
          some "http://test.org/rss" ∧
      ∃ f b, (RssUserland091Feed.write
        (SyndicationFeed.init (some "T") (some "http://x/") (some "D") none none
          none none none [] (some "http://test.org/rss") none none none)
        [mkItem (some "I") (some "http://x/i") (some "ID") none none]
        ⟨2024, 1, 1, 0, 0, 0, none⟩).1 =
        f ++ XmlEvent.start "atom:link"
          [("rel", "self"), ("href", "http://test.org/rss")] :: b) :=
  ⟨⟨by decide,
    ((rss_write_feed_url_spec
      (SyndicationFeed.init (some "T") (some "http://x/") (some "D") none none
        none none none [] none none none none)
      [mkItem (some "I") (some "http://x/i") (some "ID") none none]
      ⟨2024, 1, 1, 0, 0, 0, none⟩).1 (by decide)).1⟩,
   ⟨by decide,
    (((rss_write_feed_url_spec
      (SyndicationFeed.init (some "T") (some "http://x/") (some "D") none none
        none none none [] (some "http://test.org/rss") none none none)
      [mkItem (some "I") (some "http://x/i") (some "ID") none none]
      ⟨2024, 1, 1, 0, 0, 0, none⟩).2.1 "http://test.org/rss" (by decide)).2)⟩⟩

/-! ## Claim C1: the RSS 2.0 round-trip scenario -/

/-- The C1 scenario feed: title `T`, link `http://x/`, description `D`,
no other metadata (in particular no `feed_url`). -/
def feedC1 : Feed :=
  SyndicationFeed.init (some "T") (some "http://x/") (some "D") none none
    none none none [] none none none none

/-- The C1 scenario feed with a `feed_url`, as in the module docstring's
own sample usage. -/
def feedC1url : Feed :=
  SyndicationFeed.init (some "T") (some "http://x/") (some "D") none none
    none none none [] (some "http://test.org/rss") none none none

/-- The C1 scenario item: title `I`, link `http://x/i`, description `ID`. -/
def itemC1 : Item :=
  SyndicationFeed.add_item (some "I") (some "http://x/i") (some "ID") none none
    none none none none none [] none none

/-- C1 evaluated on the code: `write` on the scenario feed does not produce
the claimed XML document — it raises.  Without a `feed_url` it raises while
quoting the `None` value of the self `atom:link`'s `href` attribute; even
with a `feed_url` supplied (the module docstring's own usage) it raises at
`lastBuildDate`, where `.decode('utf-8')` is called on the Python 3 `str`
returned by `rfc2822_date`. -/
theorem rss2_write_scenario_raises :
    (Rss201rev2Feed.write feedC1 [itemC1] ⟨2024, 1, 1, 0, 0, 0, none⟩).2 =
      some attrNoneErr ∧
    (Rss201rev2Feed.write feedC1url [itemC1] ⟨2024, 1, 1, 0, 0, 0, none⟩).2 =
      some "AttributeError: str object has no attribute decode" :=
  ⟨by decide, by decide⟩

/-! ## Claim C6: the Atom entry's `id` -/

theorem startCount_append (m : String) (l1 l2 : List XmlEvent) :
    startCount m (l1 ++ l2) = startCount m l1 + startCount m l2 :=
  List.countP_append _ _ _

theorem startCount_addQuick_ne (m n : String) (c : Option String)
    (attrs : List (String × Option String)) (h : n ≠ m) :
    startCount m (addQuickElement n c attrs).1 = 0 := by
  unfold addQuickElement
  cases resolveAttrs attrs with
  | ok a => cases c <;> simp [startCount, List.countP_cons, h]
  | error e => rfl

theorem startCount_optElem_ne (m n : String) (v : Option String) (h : n ≠ m) :
    startCount m (optElem n v).1 = 0 := by
  cases v with
  | none => rfl
  | some s => exact startCount_addQuick_ne m n (some s) [] h

theorem startCount_emitAll_zero (m : String) (l : List EmitResult)
    (h : ∀ x ∈ l, startCount m x.1 = 0) : startCount m (emitAll l).1 = 0 := by
  induction l with
  | nil => rfl
  | cons a t ih =>
    cases ha : a.2 with
    | none =>
      rw [emitAll_fst_cons_ok a t ha, startCount_append,
        h a (List.mem_cons_self a t),
        ih (fun x hx => h x (List.mem_cons_of_mem a hx))]
    | some e =>
      rw [emitAll_cons, eseq_err _ ha]
      exact h a (List.mem_cons_self a t)

theorem exists_split3_append_left {m mid : List XmlEvent}
    (hm : ∃ f b, m = f ++ mid ++ b) (t : List XmlEvent) :
    ∃ f b, t ++ m = f ++ mid ++ b := by
  obtain ⟨f, b, rfl⟩ := hm
  exact ⟨t ++ f, b, by simp [List.append_assoc]⟩

theorem atomUpdatedElem_snd (pd : Option Datetime) :
    (atomUpdatedElem pd).2 = none := by
  cases pd <;> rfl

theorem atomUpdatedElem_count (m : String) (pd : Option Datetime) (h : m ≠ "updated") :
    startCount m (atomUpdatedElem pd).1 = 0 := by
  cases pd with
  | none => rfl
  | some d => exact startCount_addQuick_ne m "updated" _ [] (fun he => h he.symm)

theorem atomAuthorBlock_snd (name email uri : Option String) :
    (atomAuthorBlock name email uri).2 = none := by
  cases name with
  | none => rfl
  | some nm =>
    apply emitAll_snd_none
    intro x hx
    simp only [List.mem_cons, List.not_mem_nil, or_false] at hx
    rcases hx with rfl | rfl | rfl | rfl | rfl
    · rfl
    · exact addQuick_nil_snd _ _
    · exact optElem_snd _ _
    · exact optElem_snd _ _
    · rfl

theorem atomAuthorBlock_count_id (name email uri : Option String) :
    startCount "id" (atomAuthorBlock name email uri).1 = 0 := by
  cases name with
  | none => rfl
  | some nm =>
    apply startCount_emitAll_zero
    intro x hx
    simp only [List.mem_cons, List.not_mem_nil, or_false] at hx
    rcases hx with rfl | rfl | rfl | rfl | rfl
    · rfl
    · exact startCount_addQuick_ne _ "name" _ [] (by decide)
    · exact startCount_optElem_ne _ "email" _ (by decide)
    · exact startCount_optElem_ne _ "uri" _ (by decide)
    · rfl

theorem atomIdElem_snd (u : Option String) (l : String) (pd : Option Datetime) :
    (atomIdElem u (some l) pd).2 = none := by
  cases u <;> rfl

/-- With a non-`None` link, the id element's events: exactly one quick
`id` element whose text is the unique id when given, else the tag URI of
the stored link and pubdate. -/
theorem atomIdElem_fst (u : Option String) (l : String) (pd : Option Datetime) :
    (atomIdElem u (some l) pd).1 =
      [XmlEvent.start "id" [],
       XmlEvent.chars (match u with
         | some s => s
         | none => get_tag_uri l pd),
       XmlEvent.close "id"] := by
  cases u <;> rfl

theorem atomSummaryElem_snd_count (d : Option String) :
    startCount "id" (atomSummaryElem d).1 = 0 := by
  cases d with
  | none => rfl
  | some s => exact startCount_addQuick_ne _ "summary" _ _ (by decide)

theorem atomEnclosureElem_count (e : Option Enclosure) :
    startCount "id" (atomEnclosureElem e).1 = 0 := by
  cases e with
  | none => rfl
  | some enc => exact startCount_addQuick_ne _ "link" _ _ (by decide)

theorem atomCategoryElems_count (cats : List String) :
    startCount "id" (atomCategoryElems cats).1 = 0 := by
  apply startCount_emitAll_zero
  intro x hx
  obtain ⟨cat, _, rfl⟩ := List.mem_map.mp hx
  exact startCount_addQuick_ne _ "category" _ _ (by decide)

/-- C6: for every item with a stored link, the Atom per-entry renderer
emits exactly one `id` element, and its text equals the item's `unique_id`
when one was supplied, else the tag-URI generator's output on the stored
(percent-encoded) link and the item's pubdate. -/
theorem atom_entry_id_spec (item : Item) (l : String) (h : item.link = some l) :
    startCount "id" (Atom1Feed.add_item_elements item).1 = 1 ∧
    ∃ f b, (Atom1Feed.add_item_elements item).1 =
      f ++ [XmlEvent.start "id" [],
            XmlEvent.chars (match item.unique_id with
              | some s => s
              | none => get_tag_uri l item.pubdate),
            XmlEvent.close "id"] ++ b := by
  unfold Atom1Feed.add_item_elements
  rw [h]
  rw [emitAll_fst_cons_ok _ _ (addQuick_nil_snd _ _),
      emitAll_fst_cons_ok _ _ rfl,
      emitAll_fst_cons_ok _ _ (atomUpdatedElem_snd _),
      emitAll_fst_cons_ok _ _ (atomAuthorBlock_snd _ _ _),
      emitAll_fst_cons_ok _ _ (atomIdElem_snd _ _ _),
      atomIdElem_fst]
  constructor
  · simp only [startCount_append]
    rw [startCount_addQuick_ne _ "title" _ _ (by decide),
        startCount_addQuick_ne _ "link" _ _ (by decide),
        atomUpdatedElem_count _ _ (by decide),
        atomAuthorBlock_count_id]
    have hmid : startCount "id"
        [XmlEvent.start "id" [],
         XmlEvent.chars (match item.unique_id with
           | some s => s
           | none => get_tag_uri l item.pubdate),
         XmlEvent.close "id"] = 1 := by
      simp [startCount, List.countP_cons]
    rw [hmid]
    have htail : startCount "id" (emitAll
        [atomSummaryElem item.description,
         atomEnclosureElem item.enclosure,
         atomCategoryElems item.categories,
         optElem "rights" item.item_copyright]).1 = 0 := by
      apply startCount_emitAll_zero
      intro x hx
      simp only [List.mem_cons, List.not_mem_nil, or_false] at hx
      rcases hx with rfl | rfl | rfl | rfl
      · exact atomSummaryElem_snd_count _
      · exact atomEnclosureElem_count _
      · exact atomCategoryElems_count _
      · exact startCount_optElem_ne _ "rights" _ (by decide)
    rw [htail]
  · refine exists_split3_append_left (exists_split3_append_left
      (exists_split3_append_left (exists_split3_append_left ?_ _) _) _) _
    exact ⟨[], (emitAll
      [atomSummaryElem item.description, atomEnclosureElem item.enclosure,
       atomCategoryElems item.categories,
       optElem "rights" item.item_copyright]).1, by simp⟩

/-- Witness for C6: one item carrying an explicit unique id and one item
without, both with a stored link. -/
theorem atom_entry_id_spec_witness :
    ((mkItem (some "I") (some "http://x/i") (some "ID") none
        (some "my-id")).link = some "http://x/i" ∧
      startCount "id" (Atom1Feed.add_item_elements
        (mkItem (some "I") (some "http://x/i") (some "ID") none
          (some "my-id"))).1 = 1 ∧
      ∃ f b, (Atom1Feed.add_item_elements
        (mkItem (some "I") (some "http://x/i") (some "ID") none
          (some "my-id"))).1 =
        f ++ [XmlEvent.start "id" [], XmlEvent.chars "my-id",
              XmlEvent.close "id"] ++ b) ∧
    ((mkItem (some "I") (some "http://x/i") (some "ID")
        (some ⟨2009, 1, 1, 0, 0, 0, none⟩) none).link = some "http://x/i" ∧
      ∃ f b, (Atom1Feed.add_item_elements
        (mkItem (some "I") (some "http://x/i") (some "ID")
          (some ⟨2009, 1, 1, 0, 0, 0, none⟩) none)).1 =
        f ++ [XmlEvent.start "id" [],
              XmlEvent.chars (get_tag_uri "http://x/i"
                (some ⟨2009, 1, 1, 0, 0, 0, none⟩)),
              XmlEvent.close "id"] ++ b) := by
  constructor
  · refine ⟨by decide, ?_⟩
    exact atom_entry_id_spec
      (mkItem (some "I") (some "http://x/i") (some "ID") none (some "my-id"))
      "http://x/i" (by decide)
  · refine ⟨by decide, ?_⟩
    exact (atom_entry_id_spec
      (mkItem (some "I") (some "http://x/i") (some "ID")
        (some ⟨2009, 1, 1, 0, 0, 0, none⟩) none)
      "http://x/i" (by decide)).2
